import Mathlib

/-!
Verification of the task-app Notion adapter (`notion_wrapper.py` and its
collaborators) against its natural-language specification.

The Python source is shallowly embedded: strings are `String`/`List Char`,
Python `None` is `Option.none`, JSON values are the inductive `JVal`,
fallible Python expressions are `Except String`, and network responses are
passed in as explicit parameters (the adapter only ever inspects status
code and decoded body).
-/

namespace TaskApp

/-! ## Identifier normalizer: `NotionWrapper._sanitize_id`

The Python routine (notion_wrapper.py lines 34-61) takes a string,
returns `None` for a falsy input, strips a query suffix, keeps the last
path segment, then searches for a 32-char lowercase-hex run, then for a
hyphenated UUID, and otherwise returns the processed string unchanged.
Strings are modelled as `List Char` here; a `String`-level wrapper
follows. -/

/-- The character class of the regex `[a-f0-9]`. -/
def isHexLower (c : Char) : Bool :=
  ('a' ≤ c && c ≤ 'f') || ('0' ≤ c && c ≤ '9')

/-- Attempt of the regex `[a-f0-9]{32}` at the head of the list: succeeds
iff the first 32 characters exist and are all lowercase hex, returning
exactly those 32 characters (the regex quantifier is exact). -/
def hexMatchAt (l : List Char) : Option (List Char) :=
  if (l.take 32).length == 32 && (l.take 32).all isHexLower then some (l.take 32)
  else none

/-- `re.search` for `([a-f0-9]{32})`: leftmost position whose next 32
characters are all lowercase hex. -/
def searchHex32 : List Char → Option (List Char)
  | [] => none
  | c :: rest =>
    match hexMatchAt (c :: rest) with
    | some m => some m
    | none => searchHex32 rest

/-- Consume exactly `n` lowercase-hex characters, returning the remainder. -/
def takeHex : Nat → List Char → Option (List Char)
  | 0, l => some l
  | _ + 1, [] => none
  | n + 1, c :: rest => if isHexLower c then takeHex n rest else none

/-- Consume one hyphen, returning the remainder. -/
def takeDash : List Char → Option (List Char)
  | '-' :: rest => some rest
  | _ => none

/-- Parser for the regex `[a-f0-9]{8}-[a-f0-9]{4}-[a-f0-9]{4}-[a-f0-9]{4}-[a-f0-9]{12}`
anchored at the head and required to consume the whole list. -/
def uuidParse (m : List Char) : Option Unit := do
  let r1 ← takeHex 8 m
  let r2 ← takeDash r1
  let r3 ← takeHex 4 r2
  let r4 ← takeDash r3
  let r5 ← takeHex 4 r4
  let r6 ← takeDash r5
  let r7 ← takeHex 4 r6
  let r8 ← takeDash r7
  let r9 ← takeHex 12 r8
  if r9.isEmpty then some () else none

/-- Whether a list is exactly a hyphenated lowercase UUID. -/
def uuidOk (m : List Char) : Bool := (uuidParse m).isSome

/-- Attempt of the UUID regex at the head of the list: the match, if any,
is exactly the next 36 characters. -/
def uuidMatchAt (l : List Char) : Option (List Char) :=
  if uuidOk (l.take 36) then some (l.take 36) else none

/-- `re.search` for the hyphenated UUID pattern. -/
def searchUUID : List Char → Option (List Char)
  | [] => none
  | c :: rest =>
    match uuidMatchAt (c :: rest) with
    | some m => some m
    | none => searchUUID rest

/-- `id_str.split("?")[0]`: the prefix before the first question mark. -/
def stripQuery (l : List Char) : List Char := l.takeWhile (fun c => c != '?')

/-- `id_str.split("/")[-1]` guarded by `if "/" in id_str`: the suffix
after the last slash when one is present. -/
def lastSegment (l : List Char) : List Char :=
  if '/' ∈ l then (l.reverse.takeWhile (fun c => c != '/')).reverse else l

/-- `NotionWrapper._sanitize_id` on a (non-`None`) string, as a `List Char`
function. Falsy (empty) input returns `None`; then the query string is
stripped (`split("?")[0]`), the last path segment kept when a `/` is
present (`split("/")[-1]`), and the two regex searches run in order. -/
def sanitize_id (l : List Char) : Option (List Char) :=
  if l.isEmpty then none
  else
    match searchHex32 (lastSegment (stripQuery l)) with
    | some m => some m
    | none =>
      match searchUUID (lastSegment (stripQuery l)) with
      | some m => some m
      | none => some (lastSegment (stripQuery l))

/-- `_sanitize_id` lifted to an optional argument (Python `None` in,
`None` out, since `not None` is truthy). -/
def sanitizeOptL : Option (List Char) → Option (List Char)
  | none => none
  | some l => sanitize_id l

/-- `_sanitize_id` at `String` level. -/
def sanitize_str (s : String) : Option String :=
  (sanitize_id s.data).map String.mk

/-- `_sanitize_id` at `String` level on an optional argument. -/
def sanitizeOptS : Option String → Option String
  | none => none
  | some s => sanitize_str s

example : sanitize_str "12345678123456781234567812345678" = some "12345678123456781234567812345678" := by decide
example : sanitize_str "https://www.notion.so/myws/12345678123456781234567812345678?v=abc" =
    some "12345678123456781234567812345678" := by decide
example : sanitize_str "12345678-1234-1234-1234-123456789012" = some "12345678-1234-1234-1234-123456789012" := by decide
example : sanitize_str "hello" = some "hello" := by decide
example : sanitize_str "?" = some "" := by decide
example : sanitizeOptS (sanitize_str "?") = none := by decide

/-! ## Schema resolver: `NotionWrapper._fetch_db_schema`

notion_wrapper.py lines 63-132. The decoded metadata response is passed
in as `Except String (Nat × List (String × String))`: `.error` is a
transport/JSON exception, `.ok (status, props)` a decoded response whose
`properties` object is the ordered list of (property name, declared type)
pairs. The function returns the resolved schema together with a flag
recording whether `st.warning` was called; it is total, mirroring the
all-catching `try/except`. -/

/-- A resolved role-to-field-name mapping. -/
structure Schema where
  title : String
  date : String
  relation : String
deriving DecidableEq, Repr

/-- The literal defaults initialised at line 69. -/
def defaultSchema : Schema := ⟨"名前", "日付", "Project"⟩

/-- One iteration of the first `for name, prop in properties.items()`
loop (lines 86-110), including the dead nested `pass` branch and the
if/elif pair on the relation case, both of whose live arms assign
`name`. -/
def scanStep (schema : Schema) (name ptype : String) : Schema :=
  if ptype = "title" then { schema with title := name }
  else if ptype = "date" then { schema with date := name }
  else if ptype = "relation" then
    if name = "Project" ∨ schema.relation = "Project" then { schema with relation := name }
    else if schema.relation ≠ "Project" then { schema with relation := name }
    else schema
  else schema

/-- The first scan loop over the ordered property items. -/
def scanProps : Schema → List (String × String) → Schema
  | schema, [] => schema
  | schema, (name, ptype) :: rest => scanProps (scanStep schema name ptype) rest

/-- Whether the first character list starts with the second. -/
def startsWithL : List Char → List Char → Bool
  | _, [] => true
  | [], _ :: _ => false
  | a :: as, b :: bs => a == b && startsWithL as bs

/-- Python `needle in hay` on strings, as character lists: substring
containment. -/
def containsSub (needle : List Char) : List Char → Bool
  | [] => needle.isEmpty
  | c :: rest => startsWithL (c :: rest) needle || containsSub needle rest

/-- The names of the properties of a given declared type, in item order
(the comprehensions at lines 114-116). -/
def typedNames (props : List (String × String)) (ty : String) : List String :=
  (props.filter (fun p => p.2 = ty)).map Prod.fst

/-- The fuzzy search for a relation name containing "project"
case-insensitively (line 121). -/
def projectHint (props : List (String × String)) : Option String :=
  (typedNames props "relation").find? (fun r => containsSub "project".data (r.data.map Char.toLower))

/-- The precise re-scan (lines 112-125): partition property names by
declared type, take the first title/date, and for the relation prefer a
name containing "project" case-insensitively, else the first relation. -/
def rescan (schema : Schema) (props : List (String × String)) : Schema :=
  let schema := match typedNames props "title" with
    | t :: _ => { schema with title := t }
    | [] => schema
  let schema := match typedNames props "date" with
    | d :: _ => { schema with date := d }
    | [] => schema
  match projectHint props with
  | some r => { schema with relation := r }
  | none =>
    match typedNames props "relation" with
    | r :: _ => { schema with relation := r }
    | [] => schema

/-- `_fetch_db_schema`: on a 200 response run both scans over the
properties; on a non-200 status or an exception, warn and return the
defaults. The `Bool` records whether a warning was surfaced. -/
def fetch_db_schema (resp : Except String (Nat × List (String × String))) : Schema × Bool :=
  match resp with
  | .error _ => (defaultSchema, true)
  | .ok (status, props) =>
    if status = 200 then (rescan (scanProps defaultSchema props) props, false)
    else (defaultSchema, true)

example : fetch_db_schema (.ok (200, [("Name", "title"), ("When", "date"), ("Owner", "relation")])) =
    (⟨"Name", "When", "Owner"⟩, false) := by decide
example : fetch_db_schema (.ok (404, [("Name", "title")])) = (defaultSchema, true) := by decide
example : fetch_db_schema (.error "timeout") = (defaultSchema, true) := by decide
example : fetch_db_schema (.ok (200, [("A", "relation"), ("My Project", "relation")])) =
    (⟨"名前", "日付", "My Project"⟩, false) := by decide

/-! ## Write path: `NotionWrapper.add_task`

notion_wrapper.py lines 134-183. The outbound `properties` payload is a
Python dict built from a literal with the title and relation entries and
a conditional `properties[prop_date] = ...` assignment; it is modelled as
an insertion-ordered association list with dict update semantics. -/

/-- `datetime.date`: a plain calendar date. -/
structure PyDate where
  year : Nat
  month : Nat
  day : Nat
deriving DecidableEq, Repr

/-- The decimal digit character for `n < 10`. -/
def digitChar (n : Nat) : Char := Char.ofNat (48 + n)

/-- Decimal digits of a natural number, most significant first; the fuel
argument is structural and always suffices when it exceeds `n`. -/
def natDigitsGo : Nat → Nat → List Char
  | 0, _ => []
  | fuel + 1, n =>
    if n < 10 then [digitChar n]
    else natDigitsGo fuel (n / 10) ++ [digitChar (n % 10)]

/-- Decimal digit string of a natural number (Python `str`/`%d`). -/
def natDigits (n : Nat) : List Char := natDigitsGo (n + 1) n

/-- Left zero-padding to width `w` (Python `%0wd`). -/
def padZeros (w : Nat) (l : List Char) : List Char :=
  List.replicate (w - l.length) '0' ++ l

/-- `date.isoformat()` as a character list: `YYYY-MM-DD`, the year padded
to four digits and month/day to two. -/
def isoformatL (d : PyDate) : List Char :=
  padZeros 4 (natDigits d.year) ++ '-' :: (padZeros 2 (natDigits d.month) ++ '-' :: padZeros 2 (natDigits d.day))

/-- `date.isoformat()` as a `String`. -/
def isoformat (d : PyDate) : String := String.mk (isoformatL d)

example : isoformat ⟨2023, 1, 1⟩ = "2023-01-01" := by decide
example : isoformat ⟨2023, 12, 31⟩ = "2023-12-31" := by decide

/-- One outbound Notion property value, as built by `add_task`:
`{"title": [{"text": {"content": name}}]}`,
`{"relation": [{"id": project_id}]}` (the id is `project_id` verbatim,
possibly `None`), or `{"date": {"start": date_iso}}`. -/
inductive PropPayload where
  | titleP (content : String)
  | relationP (ids : List (Option String))
  | dateP (start : String)
deriving DecidableEq, Repr

/-- Python dict assignment `d[k] = v` on an insertion-ordered
association list: replace in place if the key exists, else append. -/
def dinsert (k : String) (v : PropPayload) : List (String × PropPayload) → List (String × PropPayload)
  | [] => [(k, v)]
  | (k', v') :: rest => if k = k' then (k, v) :: rest else (k', v') :: dinsert k v rest

/-- Python dict lookup `d[k]` / `k in d` on the association list. -/
def pylookup (props : List (String × PropPayload)) (k : String) : Option PropPayload :=
  match props with
  | [] => none
  | (k', v) :: rest => if k' = k then some v else pylookup rest k

/-- The `properties` payload built by `add_task` (lines 146-173): the
dict literal holds the title and relation entries unconditionally, then
the date entry is assigned only when a date was supplied (`if date:`,
and a `datetime.date` object is always truthy). -/
def build_properties (schema : Schema) (name : String) (date : Option PyDate)
    (project_id : Option String) : List (String × PropPayload) :=
  let props := dinsert schema.title (.titleP name) []
  let props := dinsert schema.relation (.relationP [project_id]) props
  match date with
  | some d => dinsert schema.date (.dateP (isoformat d)) props
  | none => props

/-- The payload a call to `add_task` passes to `pages.create`, with the
schema taken from `_fetch_db_schema` on the given metadata response. -/
def add_task_properties (schemaResp : Except String (Nat × List (String × String)))
    (name : String) (date : Option PyDate) (project_id : Option String) :
    List (String × PropPayload) :=
  build_properties (fetch_db_schema schemaResp).1 name date project_id

/-- The metadata response matching the schema mocked in test_logic.py. -/
def testSchemaResp : Except String (Nat × List (String × String)) :=
  .ok (200, [("Task Name", "title"), ("Date", "date"), ("Project", "relation")])

example : (fetch_db_schema testSchemaResp).1 = ⟨"Task Name", "Date", "Project"⟩ := by decide
example : add_task_properties testSchemaResp "Test Task" none none =
    [("Task Name", .titleP "Test Task"), ("Project", .relationP [none])] := by decide
example : add_task_properties testSchemaResp "Test Task" (some ⟨2023, 1, 1⟩) none =
    [("Task Name", .titleP "Test Task"), ("Project", .relationP [none]),
      ("Date", .dateP "2023-01-01")] := by decide

/-! ## Read path: `NotionWrapper.get_tasks`

notion_wrapper.py lines 292-361. Raw query records are decoded JSON,
modelled by `JVal`; the per-field helpers `get_title`, `get_date` and
`get_relation_name` (lines 326-343) follow Python's dynamic semantics,
with `Except String` standing for a raised exception (KeyError,
IndexError, TypeError, AttributeError). The whole loop runs inside one
`try`, whose `except` returns a columnless empty `pd.DataFrame()`,
modelled as `none`. -/

/-- A decoded JSON value (what `response.json()` yields). -/
inductive JVal where
  | null
  | bool (b : Bool)
  | num (n : Int)
  | str (s : String)
  | arr (l : List JVal)
  | obj (l : List (String × JVal))

/-- Python truthiness of a decoded JSON value. -/
def truthy : JVal → Bool
  | .null => false
  | .bool b => b
  | .num n => n != 0
  | .str s => !s.isEmpty
  | .arr l => !l.isEmpty
  | .obj l => !l.isEmpty

/-- First-match association lookup inside a JSON object (a decoded dict
has unique keys, so first-match is dict lookup). -/
def jlookup (l : List (String × JVal)) (k : String) : Option JVal :=
  match l with
  | [] => none
  | (k', v) :: rest => if k' = k then some v else jlookup rest k

/-- Python subscription `v[k]` with a string key: KeyError when the key
is missing, TypeError when `v` is not a dict. -/
def subscr (v : JVal) (k : String) : Except String JVal :=
  match v with
  | .obj l =>
    match jlookup l k with
    | some x => .ok x
    | none => .error "KeyError"
  | _ => .error "TypeError"

/-- Python `v.get(k, default)`: AttributeError when `v` is not a dict. -/
def dGetD (v : JVal) (k : String) (d : JVal) : Except String JVal :=
  match v with
  | .obj l => .ok ((jlookup l k).getD d)
  | _ => .error "AttributeError"

/-- Python `v.get(k)` (default `None`). -/
def dGet1 (v : JVal) (k : String) : Except String JVal := dGetD v k .null

/-- Python `v[0]`: first element of a list (or one-character string of a
string); IndexError when empty, TypeError otherwise. -/
def index0 : JVal → Except String JVal
  | .arr (x :: _) => .ok x
  | .arr [] => .error "IndexError"
  | .str s =>
    match s.data with
    | c :: _ => .ok (.str (String.mk [c]))
    | [] => .error "IndexError"
  | _ => .error "TypeError"

/-- Python `==` between a decoded JSON value and another, as used by the
`in` membership test against string dict keys. -/
def pyEqJ : JVal → JVal → Bool
  | .str a, .str b => a == b
  | .num a, .num b => a == b
  | .bool a, .bool b => a == b
  | .null, .null => true
  | _, _ => false

/-- `get_tasks.get_title` (lines 326-328):
`res = prop.get("title", []); return res[0]["text"]["content"] if res else ""`. -/
def get_title (prop : JVal) : Except String JVal := do
  let res ← dGetD prop "title" (.arr [])
  if truthy res then do
    let x ← index0 res
    let t ← subscr x "text"
    subscr t "content"
  else
    pure (.str "")

/-- `get_tasks.get_date` (lines 330-332):
`res = prop.get("date", {}); return res.get("start") if res else ""`. -/
def get_date (prop : JVal) : Except String JVal := do
  let res ← dGetD prop "date" (.obj [])
  if truthy res then dGet1 res "start"
  else pure (.str "")

/-- `get_tasks.get_relation_name` (lines 334-343): "-" when the relation
list is falsy; else the first reference's id is looked up in the
caller-supplied `project_map` (`if project_map and p_id in project_map`),
giving the mapped name when found and "Unknown Project" otherwise. An
empty or missing `project_map` is falsy, hence also "Unknown Project". -/
def get_relation_name (prop : JVal) (project_map : Option (List (String × String))) :
    Except String JVal := do
  let relation_list ← dGetD prop "relation" (.arr [])
  if truthy relation_list then do
    let first ← index0 relation_list
    let p_id ← subscr first "id"
    match project_map with
    | some m =>
      match m.find? (fun kv => pyEqJ p_id (.str kv.1)) with
      | some kv => pure (.str kv.2)
      | none => pure (.str "Unknown Project")
    | none => pure (.str "Unknown Project")
  else
    pure (.str "-")

/-- One flattened row of the task history (`item` at lines 346-350). -/
structure TaskRow where
  task : JVal
  date : JVal
  project : JVal

/-- One iteration of the parsing loop (lines 322-351): take the record's
`properties` object and extract the three display fields, each helper
receiving `props.get(name, {})`. -/
def parseItem (prop_title prop_date prop_relation : String)
    (project_map : Option (List (String × String))) (page : JVal) : Except String TaskRow := do
  let props ← subscr page "properties"
  let t ← do
    let p ← dGetD props prop_title (.obj [])
    get_title p
  let d ← do
    let p ← dGetD props prop_date (.obj [])
    get_date p
  let r ← do
    let p ← dGetD props prop_relation (.obj [])
    get_relation_name p project_map
  pure ⟨t, d, r⟩

/-- The `for page in response["results"]` loop: parse records in order,
a raised exception aborting the remainder. -/
def parseLoop (prop_title prop_date prop_relation : String)
    (project_map : Option (List (String × String))) : List JVal → Except String (List TaskRow)
  | [] => .ok []
  | page :: rest => do
    let row ← parseItem prop_title prop_date prop_relation project_map page
    let rows ← parseLoop prop_title prop_date prop_relation project_map rest
    pure (row :: rows)

/-- `get_tasks`: resolve the schema from the metadata response, read
`response["results"]` from the query response (`.error` standing for a
raised `_query_database` failure) and parse every record. Any exception
reaches the outer `except`, which returns a columnless empty DataFrame,
modelled as `none`; the success path returns the parsed rows (the
`if not data` branch yields the same empty row list, with columns). -/
def get_tasks (schemaResp : Except String (Nat × List (String × String)))
    (queryResp : Except String JVal) (project_map : Option (List (String × String))) :
    Option (List TaskRow) :=
  let schema := (fetch_db_schema schemaResp).1
  let run : Except String (List TaskRow) := do
    let resp ← queryResp
    let results ← subscr resp "results"
    match results with
    | .arr pages => parseLoop schema.title schema.date schema.relation project_map pages
    | _ => .error "TypeError"
  match run with
  | .ok rows => some rows
  | .error _ => none

/-! ## Constructor: `NotionWrapper.__init__`

notion_wrapper.py lines 10-32. The three configuration values arrive
from secrets or the environment (modelled as the resolved optional
values; an unset variable is `none`). When any value is falsy the branch
is a bare `pass` (lines 22-25): nothing is raised, sanitization is
skipped. The client is created only when a token is present. The
`Except` result records whether the constructor raised. -/

/-- Python truthiness of an optional string (`None` and `""` falsy). -/
def truthyO : Option String → Bool
  | none => false
  | some s => !s.isEmpty

/-- The adapter state after construction. -/
structure WrapperState where
  token : Option String
  database_id : Option String
  project_db_id : Option String
  hasClient : Bool
deriving DecidableEq, Repr

/-- `NotionWrapper.__init__` on the resolved configuration values. -/
def initWrapper (token database_id project_db_id : Option String) :
    Except String WrapperState :=
  let missing := !truthyO token || !truthyO database_id || !truthyO project_db_id
  let database_id := if missing then database_id else sanitizeOptS database_id
  let project_db_id := if missing then project_db_id else sanitizeOptS project_db_id
  .ok ⟨token, database_id, project_db_id, truthyO token⟩

example : initWrapper none none none = .ok ⟨none, none, none, false⟩ := rfl
example : initWrapper (some "tok") (some "db?x") none =
    .ok ⟨some "tok", some "db?x", none, true⟩ := rfl
example : initWrapper (some "tok") (some "db?x") (some "p") =
    .ok ⟨some "tok", some "db", some "p", true⟩ := rfl

/-! ## Status update -/

/-- Modelled from the spec: `updateTaskStatus(recordId, newStatus) -> bool`
is declared in the spec's interface list (§6) and invoked from main.py
line 253 and pages/daily_tasks.py line 119, but no implementation exists
under src/. Per §6/§7 the operation performs the status write and
returns a success/failure boolean, never raising across the boundary:
a failed call reports `false`. The network outcome of the write is
passed in as `apiResult`. -/
def update_task_status (recordId newStatus : String) (apiResult : Except String Unit) :
    Except String Bool :=
  .ok (match apiResult with
    | .ok _ => true
    | .error _ => false)

/-! ## Auxiliary definitions for the statements -/

/-- Whether an outbound property value is a date property. -/
def isDatePayload : PropPayload → Bool
  | .dateP _ => true
  | _ => false

/-- A well-formed record: title "A", no date property, no relation
property. -/
def cGoodPage : JVal :=
  .obj [("properties", .obj [("名前", .obj [("title",
    .arr [.obj [("text", .obj [("content", .str "A")])]])])])]

/-- A record whose title property is wrong-shaped: its first rich-text
run has no "text" subfield, so `res[0]["text"]` raises KeyError. -/
def cBadPage : JVal :=
  .obj [("properties", .obj [("名前", .obj [("title", .arr [.obj [("x", .null)]])])])]

/-- A successful query response holding the well-formed record followed
by the wrong-shaped one. -/
def cBadQuery : JVal := .obj [("results", .arr [cGoodPage, cBadPage])]

/-- The properties object of a decoded response, empty on the error
branch. -/
def respProps : Except String (Nat × List (String × String)) → List (String × String)
  | .error _ => []
  | .ok (_, props) => props

/-! ## Helper lemmas -/

/-- Dict lookup after dict assignment of the same key finds the assigned
value. -/
lemma pylookup_dinsert_self (k : String) (v : PropPayload) (props : List (String × PropPayload)) :
    pylookup (dinsert k v props) k = some v := by
  induction props with
  | nil => simp [dinsert, pylookup]
  | cons hd tl ih =>
    obtain ⟨k', v'⟩ := hd
    by_cases h : k = k'
    · simp [dinsert, h, pylookup]
    · have h' : ¬k' = k := fun hh => h hh.symm
      simp [dinsert, h, pylookup, h', ih]

@[simp] lemma except_bind_ok {ε α β : Type} (a : α) (f : α → Except ε β) :
    (Except.ok a >>= f) = f a := rfl

@[simp] lemma except_bind_error {ε α β : Type} (e : ε) (f : α → Except ε β) :
    ((Except.error e : Except ε α) >>= f) = .error e := rfl

@[simp] lemma except_pure_eq_ok {ε α : Type} (a : α) : (pure a : Except ε α) = .ok a := rfl

/-- A name from a typed partition comes from a property of the list. -/
lemma mem_typedNames {a : String} {props : List (String × String)} {ty : String}
    (h : a ∈ typedNames props ty) : ∃ p, p ∈ props ∧ p.1 = a := by
  obtain ⟨p, hp, hpa⟩ := List.mem_map.mp h
  exact ⟨p, (List.mem_filter.mp hp).1, hpa⟩

/-- When no property has the given type, the typed partition is empty. -/
lemma typedNames_nil {props : List (String × String)} {ty : String}
    (h : ∀ p ∈ props, p.2 ≠ ty) : typedNames props ty = [] := by
  unfold typedNames
  rw [List.filter_eq_nil_iff.mpr (by simpa using h)]
  rfl

lemma scanStep_title (s : Schema) (name ptype : String) :
    (scanStep s name ptype).title = s.title ∨ (scanStep s name ptype).title = name := by
  unfold scanStep
  split_ifs <;> simp

lemma scanStep_date (s : Schema) (name ptype : String) :
    (scanStep s name ptype).date = s.date ∨ (scanStep s name ptype).date = name := by
  unfold scanStep
  split_ifs <;> simp

lemma scanStep_relation (s : Schema) (name ptype : String) :
    (scanStep s name ptype).relation = s.relation ∨ (scanStep s name ptype).relation = name := by
  unfold scanStep
  split_ifs <;> simp

lemma scanStep_title_eq (s : Schema) (name ptype : String) (h : ptype ≠ "title") :
    (scanStep s name ptype).title = s.title := by
  unfold scanStep
  split_ifs <;> simp_all

lemma scanStep_date_eq (s : Schema) (name ptype : String) (h : ptype ≠ "date") :
    (scanStep s name ptype).date = s.date := by
  unfold scanStep
  split_ifs <;> simp_all

lemma scanStep_relation_eq (s : Schema) (name ptype : String) (h : ptype ≠ "relation") :
    (scanStep s name ptype).relation = s.relation := by
  unfold scanStep
  split_ifs <;> simp_all

lemma scanProps_title_mem : ∀ (props : List (String × String)) (s : Schema),
    (scanProps s props).title = s.title ∨ (scanProps s props).title ∈ props.map Prod.fst := by
  intro props
  induction props with
  | nil => intro s; exact Or.inl rfl
  | cons hd tl ih =>
    intro s
    obtain ⟨name, ptype⟩ := hd
    rcases ih (scanStep s name ptype) with h | h
    · rcases scanStep_title s name ptype with h2 | h2
      · exact Or.inl (by simp only [scanProps]; rw [h, h2])
      · exact Or.inr (by simp only [scanProps]; rw [h, h2]; simp)
    · exact Or.inr (by simp only [scanProps, List.map_cons]; exact List.mem_cons_of_mem _ h)

lemma scanProps_date_mem : ∀ (props : List (String × String)) (s : Schema),
    (scanProps s props).date = s.date ∨ (scanProps s props).date ∈ props.map Prod.fst := by
  intro props
  induction props with
  | nil => intro s; exact Or.inl rfl
  | cons hd tl ih =>
    intro s
    obtain ⟨name, ptype⟩ := hd
    rcases ih (scanStep s name ptype) with h | h
    · rcases scanStep_date s name ptype with h2 | h2
      · exact Or.inl (by simp only [scanProps]; rw [h, h2])
      · exact Or.inr (by simp only [scanProps]; rw [h, h2]; simp)
    · exact Or.inr (by simp only [scanProps, List.map_cons]; exact List.mem_cons_of_mem _ h)

lemma scanProps_relation_mem : ∀ (props : List (String × String)) (s : Schema),
    (scanProps s props).relation = s.relation
      ∨ (scanProps s props).relation ∈ props.map Prod.fst := by
  intro props
  induction props with
  | nil => intro s; exact Or.inl rfl
  | cons hd tl ih =>
    intro s
    obtain ⟨name, ptype⟩ := hd
    rcases ih (scanStep s name ptype) with h | h
    · rcases scanStep_relation s name ptype with h2 | h2
      · exact Or.inl (by simp only [scanProps]; rw [h, h2])
      · exact Or.inr (by simp only [scanProps]; rw [h, h2]; simp)
    · exact Or.inr (by simp only [scanProps, List.map_cons]; exact List.mem_cons_of_mem _ h)

lemma scanProps_title_preserve : ∀ (props : List (String × String)) (s : Schema),
    (∀ p ∈ props, p.2 ≠ "title") → (scanProps s props).title = s.title := by
  intro props
  induction props with
  | nil => intro s _; rfl
  | cons hd tl ih =>
    intro s h
    obtain ⟨name, ptype⟩ := hd
    simp only [scanProps]
    rw [ih _ fun p hp => h p (List.mem_cons_of_mem _ hp)]
    exact scanStep_title_eq s name ptype (h (name, ptype) (List.mem_cons_self _ _))

lemma scanProps_date_preserve : ∀ (props : List (String × String)) (s : Schema),
    (∀ p ∈ props, p.2 ≠ "date") → (scanProps s props).date = s.date := by
  intro props
  induction props with
  | nil => intro s _; rfl
  | cons hd tl ih =>
    intro s h
    obtain ⟨name, ptype⟩ := hd
    simp only [scanProps]
    rw [ih _ fun p hp => h p (List.mem_cons_of_mem _ hp)]
    exact scanStep_date_eq s name ptype (h (name, ptype) (List.mem_cons_self _ _))

lemma scanProps_relation_preserve : ∀ (props : List (String × String)) (s : Schema),
    (∀ p ∈ props, p.2 ≠ "relation") → (scanProps s props).relation = s.relation := by
  intro props
  induction props with
  | nil => intro s _; rfl
  | cons hd tl ih =>
    intro s h
    obtain ⟨name, ptype⟩ := hd
    simp only [scanProps]
    rw [ih _ fun p hp => h p (List.mem_cons_of_mem _ hp)]
    exact scanStep_relation_eq s name ptype (h (name, ptype) (List.mem_cons_self _ _))

lemma digitChar_isDigit {n : Nat} (h : n < 10) : (digitChar n).isDigit = true := by
  interval_cases n <;> decide

lemma natDigitsGo_all_digit : ∀ (fuel n : Nat), ∀ c ∈ natDigitsGo fuel n, c.isDigit = true := by
  intro fuel
  induction fuel with
  | zero => intro n c hc; simp [natDigitsGo] at hc
  | succ fuel ih =>
    intro n c hc
    by_cases h : n < 10
    · simp [natDigitsGo, h] at hc
      exact hc ▸ digitChar_isDigit h
    · simp [natDigitsGo, h] at hc
      rcases hc with hc | hc
      · exact ih _ _ hc
      · exact hc ▸ digitChar_isDigit (Nat.mod_lt _ (by decide))

lemma natDigitsGo_length_le : ∀ (fuel n k : Nat), n < 10 ^ k → 0 < k →
    (natDigitsGo fuel n).length ≤ k := by
  intro fuel
  induction fuel with
  | zero => intro n k _ _; simp [natDigitsGo]
  | succ fuel ih =>
    intro n k hn hk
    by_cases h : n < 10
    · simp [natDigitsGo, h]
      exact hk
    · have hk2 : 2 ≤ k := by
        by_contra hlt
        have hk1 : k = 1 := by omega
        subst hk1
        simp at hn
        omega
      have hpow : 10 ^ (k - 1) * 10 = 10 ^ k := by
        rw [← pow_succ]
        congr 1
        omega
      have hdiv : n / 10 < 10 ^ (k - 1) := Nat.div_lt_of_lt_mul (by omega)
      have hlen := ih (n / 10) (k - 1) hdiv (by omega)
      simp [natDigitsGo, h]
      omega

lemma padZeros_length {w : Nat} {l : List Char} (h : l.length ≤ w) :
    (padZeros w l).length = w := by
  simp [padZeros]
  omega

lemma isoformat_length {d : PyDate} (hy : d.year ≤ 9999) (hm : d.month ≤ 99)
    (hd : d.day ≤ 99) : (isoformat d).length = 10 := by
  have h4 : (10 : Nat) ^ 4 = 10000 := by norm_num
  have h2 : (10 : Nat) ^ 2 = 100 := by norm_num
  have hy4 : (natDigits d.year).length ≤ 4 :=
    natDigitsGo_length_le _ _ 4 (by omega) (by decide)
  have hm2 : (natDigits d.month).length ≤ 2 :=
    natDigitsGo_length_le _ _ 2 (by omega) (by decide)
  have hd2 : (natDigits d.day).length ≤ 2 :=
    natDigitsGo_length_le _ _ 2 (by omega) (by decide)
  show (isoformatL d).length = 10
  simp [isoformatL, padZeros]
  omega

lemma isoformat_chars {d : PyDate} : ∀ c ∈ (isoformat d).data, c.isDigit = true ∨ c = '-' := by
  intro c hc
  have hc' : c ∈ isoformatL d := hc
  simp only [isoformatL, padZeros, List.mem_append, List.mem_cons] at hc'
  rcases hc' with (h | h) | h | (h | h) | h | h
  · exact Or.inl ((List.eq_of_mem_replicate h) ▸ (by decide))
  · exact Or.inl (natDigitsGo_all_digit _ _ c h)
  · exact Or.inr h
  · exact Or.inl ((List.eq_of_mem_replicate h) ▸ (by decide))
  · exact Or.inl (natDigitsGo_all_digit _ _ c h)
  · exact Or.inr h
  · rcases h with h | h
    · exact Or.inl ((List.eq_of_mem_replicate h) ▸ (by decide))
    · exact Or.inl (natDigitsGo_all_digit _ _ c h)

lemma rescan_title (s : Schema) (props : List (String × String)) :
    (rescan s props).title =
      match typedNames props "title" with
      | t :: _ => t
      | [] => s.title := by
  unfold rescan
  cases hT : typedNames props "title" <;>
    cases hD : typedNames props "date" <;>
      cases hH : projectHint props <;>
        cases hR : typedNames props "relation" <;> simp

lemma rescan_date (s : Schema) (props : List (String × String)) :
    (rescan s props).date =
      match typedNames props "date" with
      | d :: _ => d
      | [] => s.date := by
  unfold rescan
  cases hT : typedNames props "title" <;>
    cases hD : typedNames props "date" <;>
      cases hH : projectHint props <;>
        cases hR : typedNames props "relation" <;> simp

lemma rescan_relation (s : Schema) (props : List (String × String)) :
    (rescan s props).relation =
      match projectHint props with
      | some r => r
      | none =>
        match typedNames props "relation" with
        | r :: _ => r
        | [] => s.relation := by
  unfold rescan
  cases hT : typedNames props "title" <;>
    cases hD : typedNames props "date" <;>
      cases hH : projectHint props <;>
        cases hR : typedNames props "relation" <;> simp

@[simp] lemma option_bind_some {α β : Type} (a : α) (f : α → Option β) :
    (some a >>= f) = f a := rfl

@[simp] lemma option_bind_none {α β : Type} (f : α → Option β) :
    ((none : Option α) >>= f) = none := rfl

lemma isHexLower_ne {c x : Char} (h : isHexLower c = true) (hx : isHexLower x = false) :
    c ≠ x := by
  intro he
  subst he
  rw [h] at hx
  cases hx

lemma hexMatchAt_some {l m : List Char} (h : hexMatchAt l = some m) :
    m = l.take 32 ∧ m.length = 32 ∧ m.all isHexLower = true := by
  unfold hexMatchAt at h
  split at h
  case isTrue hcond =>
    obtain ⟨h1, h2⟩ := Bool.and_eq_true_iff.mp hcond
    injection h with h
    subst h
    exact ⟨rfl, by simpa using h1, h2⟩
  case isFalse => cases h

lemma hexMatchAt_self {m : List Char} (h32 : m.length = 32) (hall : m.all isHexLower = true) :
    hexMatchAt m = some m := by
  have ht : m.take 32 = m := List.take_of_length_le (le_of_eq h32)
  unfold hexMatchAt
  rw [ht, h32, hall]
  rfl

lemma searchHex32_some : ∀ {l m : List Char}, searchHex32 l = some m →
    ∃ i, m = (l.drop i).take 32 ∧ m.length = 32 ∧ m.all isHexLower = true := by
  intro l
  induction l with
  | nil => intro m h; cases h
  | cons c rest ih =>
    intro m h
    unfold searchHex32 at h
    cases hm : hexMatchAt (c :: rest) with
    | some m0 =>
      rw [hm] at h
      injection h with h
      subst h
      obtain ⟨he, h32, hall⟩ := hexMatchAt_some hm
      exact ⟨0, he, h32, hall⟩
    | none =>
      rw [hm] at h
      obtain ⟨i, he, h32, hall⟩ := ih h
      exact ⟨i + 1, by rw [List.drop_succ_cons]; exact he, h32, hall⟩

lemma searchHex32_of_hex {m : List Char} (h32 : m.length = 32) (hall : m.all isHexLower = true) :
    searchHex32 m = some m := by
  cases m with
  | nil => cases h32
  | cons c rest =>
    unfold searchHex32
    rw [hexMatchAt_self h32 hall]

lemma takeHex_decomp : ∀ {n : Nat} {l r : List Char}, takeHex n l = some r →
    ∃ pre, l = pre ++ r ∧ pre.length = n ∧ pre.all isHexLower = true := by
  intro n
  induction n with
  | zero =>
    intro l r h
    unfold takeHex at h
    injection h with h
    exact ⟨[], by rw [h]; rfl, rfl, rfl⟩
  | succ n ih =>
    intro l r h
    cases l with
    | nil => cases h
    | cons c rest =>
      unfold takeHex at h
      by_cases hc : isHexLower c
      · rw [if_pos hc] at h
        obtain ⟨pre, he, hlen, hall⟩ := ih h
        exact ⟨c :: pre, by rw [he]; rfl, by simp [hlen], by simp [hall, hc]⟩
      · rw [if_neg hc] at h
        cases h

lemma takeDash_some : ∀ {l r : List Char}, takeDash l = some r → l = '-' :: r := by
  intro l r h
  unfold takeDash at h
  split at h
  next rest =>
    injection h with h
    rw [h]
  next => cases h

lemma uuidOk_decomp {m : List Char} (h : uuidOk m = true) :
    ∃ a b c d e, m = a ++ '-' :: (b ++ '-' :: (c ++ '-' :: (d ++ '-' :: e)))
      ∧ a.length = 8 ∧ b.length = 4 ∧ c.length = 4 ∧ d.length = 4 ∧ e.length = 12
      ∧ a.all isHexLower = true ∧ b.all isHexLower = true ∧ c.all isHexLower = true
      ∧ d.all isHexLower = true ∧ e.all isHexLower = true := by
  unfold uuidOk uuidParse at h
  rw [Option.isSome_iff_exists] at h
  obtain ⟨u, hu⟩ := h
  cases h1 : takeHex 8 m with
  | none => rw [h1] at hu; cases hu
  | some r1 =>
  rw [h1] at hu
  simp only [option_bind_some] at hu
  cases h2 : takeDash r1 with
  | none => rw [h2] at hu; cases hu
  | some r2 =>
  rw [h2] at hu
  simp only [option_bind_some] at hu
  cases h3 : takeHex 4 r2 with
  | none => rw [h3] at hu; cases hu
  | some r3 =>
  rw [h3] at hu
  simp only [option_bind_some] at hu
  cases h4 : takeDash r3 with
  | none => rw [h4] at hu; cases hu
  | some r4 =>
  rw [h4] at hu
  simp only [option_bind_some] at hu
  cases h5 : takeHex 4 r4 with
  | none => rw [h5] at hu; cases hu
  | some r5 =>
  rw [h5] at hu
  simp only [option_bind_some] at hu
  cases h6 : takeDash r5 with
  | none => rw [h6] at hu; cases hu
  | some r6 =>
  rw [h6] at hu
  simp only [option_bind_some] at hu
  cases h7 : takeHex 4 r6 with
  | none => rw [h7] at hu; cases hu
  | some r7 =>
  rw [h7] at hu
  simp only [option_bind_some] at hu
  cases h8 : takeDash r7 with
  | none => rw [h8] at hu; cases hu
  | some r8 =>
  rw [h8] at hu
  simp only [option_bind_some] at hu
  cases h9 : takeHex 12 r8 with
  | none => rw [h9] at hu; cases hu
  | some r9 =>
  rw [h9] at hu
  simp only [option_bind_some] at hu
  have hr9 : r9 = [] := by
    by_cases he : r9.isEmpty
    · exact List.isEmpty_iff.mp he
    · rw [if_neg he] at hu; cases hu
  subst hr9
  obtain ⟨a, ha, haLen, haAll⟩ := takeHex_decomp h1
  obtain ⟨b, hb, hbLen, hbAll⟩ := takeHex_decomp h3
  obtain ⟨c, hc, hcLen, hcAll⟩ := takeHex_decomp h5
  obtain ⟨d, hd, hdLen, hdAll⟩ := takeHex_decomp h7
  obtain ⟨e, he, heLen, heAll⟩ := takeHex_decomp h9
  rw [List.append_nil] at he
  refine ⟨a, b, c, d, e, ?_, haLen, hbLen, hcLen, hdLen, heLen, haAll, hbAll, hcAll, hdAll, heAll⟩
  rw [ha, takeDash_some h2, hb, takeDash_some h4, hc, takeDash_some h6, hd,
    takeDash_some h8, he]

lemma uuidOk_length {m : List Char} (h : uuidOk m = true) : m.length = 36 := by
  obtain ⟨a, b, c, d, e, rfl, ha, hb, hc, hd, he, _, _, _, _, _⟩ := uuidOk_decomp h
  simp [ha, hb, hc, hd, he]

lemma uuidOk_chars {m : List Char} (h : uuidOk m = true) :
    ∀ x ∈ m, isHexLower x = true ∨ x = '-' := by
  obtain ⟨a, b, c, d, e, rfl, _, _, _, _, _, haAll, hbAll, hcAll, hdAll, heAll⟩ :=
    uuidOk_decomp h
  intro x hx
  simp only [List.mem_append, List.mem_cons] at hx
  rcases hx with hx | hx | hx | hx | hx | hx | hx | hx | hx
  · exact Or.inl (List.all_eq_true.mp haAll x hx)
  · exact Or.inr hx
  · exact Or.inl (List.all_eq_true.mp hbAll x hx)
  · exact Or.inr hx
  · exact Or.inl (List.all_eq_true.mp hcAll x hx)
  · exact Or.inr hx
  · exact Or.inl (List.all_eq_true.mp hdAll x hx)
  · exact Or.inr hx
  · exact Or.inl (List.all_eq_true.mp heAll x hx)

/-- A hyphenated UUID contains no run of 32 hex characters: any window
of 32 characters inside its 36 must cross the first hyphen. -/
lemma uuid_no_hex32 {m : List Char} (h : uuidOk m = true) : searchHex32 m = none := by
  have hlen := uuidOk_length h
  obtain ⟨a, b, c, d, e, hm, ha, _, _, _, _, _, _, _, _, _⟩ := uuidOk_decomp h
  cases hs : searchHex32 m with
  | none => rfl
  | some w =>
    exfalso
    obtain ⟨i, hwin, h32, hall⟩ := searchHex32_some hs
    have hdroplen : (m.drop i).length = 36 - i := by rw [List.length_drop, hlen]
    have hi : i ≤ 4 := by
      have : w.length = min 32 (36 - i) := by rw [hwin, List.length_take, hdroplen]
      omega
    have hdash : '-' ∈ w := by
      rw [hwin, hm, List.drop_append_eq_append_drop]
      have hia : i ≤ a.length := by omega
      have h0 : i - a.length = 0 := by omega
      rw [h0, List.drop_zero, List.take_append_eq_append_take]
      have hdl : (a.drop i).length = 8 - i := by rw [List.length_drop, ha]
      have hk : 32 - (a.drop i).length = (23 + i) + 1 := by omega
      rw [hk, List.take_succ_cons]
      exact List.mem_append_right _ (List.mem_cons_self _ _)
    have := List.all_eq_true.mp hall _ hdash
    exact absurd this (by decide)

lemma uuidMatchAt_some {l m : List Char} (h : uuidMatchAt l = some m) :
    uuidOk m = true := by
  unfold uuidMatchAt at h
  split at h
  next hok =>
    injection h with h
    rw [← h]
    exact hok
  next => cases h

lemma searchUUID_some : ∀ {l m : List Char}, searchUUID l = some m → uuidOk m = true := by
  intro l
  induction l with
  | nil => intro m h; cases h
  | cons c rest ih =>
    intro m h
    unfold searchUUID at h
    cases hm : uuidMatchAt (c :: rest) with
    | some m0 =>
      rw [hm] at h
      injection h with h
      subst h
      exact uuidMatchAt_some hm
    | none =>
      rw [hm] at h
      exact ih h

lemma searchUUID_of_uuid {m : List Char} (h : uuidOk m = true) : searchUUID m = some m := by
  have hlen := uuidOk_length h
  have hmatch : uuidMatchAt m = some m := by
    unfold uuidMatchAt
    rw [List.take_of_length_le (le_of_eq hlen), h]
    rfl
  cases m with
  | nil => cases hlen
  | cons c rest =>
    unfold searchUUID
    rw [hmatch]

/-- Reduction of `_sanitize_id` on an input that the query-strip and
path-split steps leave unchanged. -/
lemma sanitize_id_clean {m : List Char} (hm : m ≠ []) (hq : ∀ x ∈ m, x ≠ '?')
    (hs : '/' ∉ m) :
    sanitize_id m =
      match searchHex32 m with
      | some x => some x
      | none =>
        match searchUUID m with
        | some x => some x
        | none => some m := by
  have hemp : m.isEmpty = false := by
    cases m with
    | nil => exact absurd rfl hm
    | cons c rest => rfl
  have hstrip : stripQuery m = m := by
    unfold stripQuery
    exact List.takeWhile_eq_self_iff.mpr fun x hx => bne_iff_ne.mpr (hq x hx)
  have hseg : lastSegment m = m := by
    unfold lastSegment
    rw [if_neg hs]
  unfold sanitize_id
  rw [hemp, hstrip, hseg]
  rfl

/-- `_sanitize_id` returns a 32-hex match unchanged. -/
lemma sanitize_id_hex {m : List Char} (h32 : m.length = 32) (hall : m.all isHexLower = true) :
    sanitize_id m = some m := by
  have hq : ∀ x ∈ m, x ≠ '?' :=
    fun x hx => isHexLower_ne (List.all_eq_true.mp hall x hx) (by decide)
  have hs : '/' ∉ m := fun hx =>
    isHexLower_ne (List.all_eq_true.mp hall _ hx) (by decide) rfl
  rw [sanitize_id_clean (by intro he; rw [he] at h32; cases h32) hq hs,
    searchHex32_of_hex h32 hall]

/-- `_sanitize_id` returns a UUID match unchanged. -/
lemma sanitize_id_uuid {m : List Char} (h : uuidOk m = true) : sanitize_id m = some m := by
  have hchars := uuidOk_chars h
  have hq : ∀ x ∈ m, x ≠ '?' := by
    intro x hx
    rcases hchars x hx with hh | hh
    · exact isHexLower_ne hh (by decide)
    · rw [hh]; decide
  have hs : '/' ∉ m := by
    intro hx
    rcases hchars _ hx with hh | hh
    · exact isHexLower_ne hh (by decide) rfl
    · cases hh
  have hm : m ≠ [] := by
    intro he
    rw [he] at h
    cases h
  rw [sanitize_id_clean hm hq hs, uuid_no_hex32 h, searchUUID_of_uuid h]

/-- The processed string `split("?")[0]` / `split("/")[-1]` contains no
question mark and no slash. -/
lemma lastSegment_stripQuery_props (l : List Char) :
    (∀ x ∈ lastSegment (stripQuery l), x ≠ '?') ∧ '/' ∉ lastSegment (stripQuery l) := by
  have hq1 : ∀ x ∈ stripQuery l, x ≠ '?' := by
    intro x hx
    unfold stripQuery at hx
    have h2 := List.mem_takeWhile_imp hx
    exact bne_iff_ne.mp h2
  constructor
  · intro x hx
    apply hq1
    unfold lastSegment at hx
    split at hx
    · exact List.mem_reverse.mp (List.takeWhile_subset _ (List.mem_reverse.mp hx))
    · exact hx
  · intro hx
    unfold lastSegment at hx
    split at hx
    · have h2 := List.mem_takeWhile_imp (List.mem_reverse.mp hx)
      exact absurd (bne_iff_ne.mp h2) (by simp)
    · next hin => exact hin hx

/-- First application of `_sanitize_id` followed by a second: whenever
the first result is non-empty, the second application returns it
unchanged. -/
lemma sanitize_id_roundtrip : ∀ {l m : List Char}, sanitize_id l = some m → m ≠ [] →
    sanitize_id m = some m := by
  intro l m h hm
  unfold sanitize_id at h
  by_cases hemp : l.isEmpty
  · rw [if_pos hemp] at h
    cases h
  · rw [if_neg hemp] at h
    obtain ⟨hq, hs⟩ := lastSegment_stripQuery_props l
    cases hhex : searchHex32 (lastSegment (stripQuery l)) with
    | some w =>
      rw [hhex] at h
      injection h with h
      subst h
      obtain ⟨i, _, h32, hall⟩ := searchHex32_some hhex
      exact sanitize_id_hex h32 hall
    | none =>
      rw [hhex] at h
      cases huuid : searchUUID (lastSegment (stripQuery l)) with
      | some w =>
        rw [huuid] at h
        injection h with h
        subst h
        exact sanitize_id_uuid (searchUUID_some huuid)
      | none =>
        rw [huuid] at h
        injection h with h
        subst h
        rw [sanitize_id_clean hm hq hs, hhex, huuid]

/-! ## Claims -/

/-- C1: the spec and the repository's own test
`test_add_task_no_date_no_project` (test_logic.py lines 32-42, with its
companions at lines 44-54) require that a write with `project_id=None`
send no relation field: `assertNotIn("Project", properties)`. The code
(notion_wrapper.py lines 146-164) puts the relation entry in the dict
literal unconditionally, so the payload carries
`"Project": {"relation": [{"id": None}]}`: evaluating the embedded code
at the test's own input shows the relation key present with a null
reference inside. -/
theorem C1_relation_sent_without_project_id :
    pylookup (add_task_properties testSchemaResp "Test Task" none none) "Project"
      = some (.relationP [none]) := by decide

/-- C2 counterexample: constructing the adapter with all three
configuration values missing raises nothing — `__init__` (lines 10-32)
runs its `pass` branch and returns normally, contradicting the claim
that a ConfigurationError is raised at startup. -/
theorem C2_missing_config_constructs_without_error :
    initWrapper none none none = .ok ⟨none, none, none, false⟩ := rfl

/-- C2 amended: for every construction, the constructor returns normally
(never raises); when a required value is missing it skips identifier
sanitization, keeps the supplied values as-is, and creates the client
only when a token is present — missing configuration is surfaced later
by the UI caller, not by the constructor. -/
theorem C2_constructor_never_raises (token database_id project_db_id : Option String) :
    (∃ w, initWrapper token database_id project_db_id = .ok w)
    ∧ ((!truthyO token || !truthyO database_id || !truthyO project_db_id) = true →
        initWrapper token database_id project_db_id
          = .ok ⟨token, database_id, project_db_id, truthyO token⟩) := by
  constructor
  · exact ⟨_, rfl⟩
  · intro h
    simp [initWrapper, h]

/-- C2 witness: a concrete construction with the token missing returns
the untouched state and no error. -/
theorem C2_constructor_never_raises_witness :
    initWrapper none (some "db") (some "proj") = .ok ⟨none, some "db", some "proj", false⟩ :=
  (C2_constructor_never_raises none (some "db") (some "proj")).2 (by decide)

/-- C3: `update_task_status` returns a success/failure boolean for every
call and never raises across the boundary: whatever the outcome of the
underlying write, the result is `.ok true` or `.ok false`, never
`.error`. (The operation itself is absent from src/ — only its call
sites in main.py and pages/daily_tasks.py exist — so it is modelled from
the spec.) -/
theorem C3_update_task_status_returns_bool (recordId newStatus : String)
    (apiResult : Except String Unit) :
    (update_task_status recordId newStatus apiResult = .ok true
      ∨ update_task_status recordId newStatus apiResult = .ok false)
    ∧ ∀ e, update_task_status recordId newStatus apiResult ≠ .error e := by
  constructor
  · cases apiResult with
    | ok _ => exact Or.inl rfl
    | error _ => exact Or.inr rfl
  · intro e h
    cases apiResult <;> simp [update_task_status] at h

/-- C5: whenever the metadata fetch fails — a transport/JSON exception
(`.error`) or a non-success HTTP status — `_fetch_db_schema` returns the
fixed default SchemaMap `{"title": "名前", "date": "日付",
"relation": "Project"}` together with a surfaced warning; the function
is total in the embedding, mirroring the all-catching `try/except` that
never lets an exception escape. -/
theorem C5_schema_fetch_failure_defaults :
    (∀ e, fetch_db_schema (.error e) = (defaultSchema, true))
    ∧ ∀ status props, status ≠ 200 →
        fetch_db_schema (.ok (status, props)) = (defaultSchema, true) := by
  constructor
  · intro e
    rfl
  · intro status props h
    simp [fetch_db_schema, h]

/-- C5 witness: a concrete 500 response yields the defaults and a
warning. -/
theorem C5_schema_fetch_failure_defaults_witness :
    fetch_db_schema (.ok (500, [("Name", "title")])) = (defaultSchema, true) :=
  C5_schema_fetch_failure_defaults.2 500 [("Name", "title")] (by decide)

/-- C9: a write with no date supplied produces a payload whose keys are
exactly the title and relation field names (the relation name alone when
the two coincide) and none of whose values is a date property — there is
no date field at all, not a null-valued one. -/
theorem C9_no_date_no_date_field (schemaResp : Except String (Nat × List (String × String)))
    (name : String) (project_id : Option String) :
    ((add_task_properties schemaResp name none project_id).all
        (fun kv => !isDatePayload kv.2)) = true
    ∧ (add_task_properties schemaResp name none project_id).map Prod.fst
        = (if (fetch_db_schema schemaResp).1.relation = (fetch_db_schema schemaResp).1.title
            then [(fetch_db_schema schemaResp).1.title]
            else [(fetch_db_schema schemaResp).1.title, (fetch_db_schema schemaResp).1.relation]) := by
  by_cases h : (fetch_db_schema schemaResp).1.relation = (fetch_db_schema schemaResp).1.title
  · simp [add_task_properties, build_properties, dinsert, h, isDatePayload]
  · simp [add_task_properties, build_properties, dinsert, h, isDatePayload]

/-- C4: the read path's relation display value (notion_wrapper.py lines
334-343), in the three cases the spec names: a referenced id found in
the caller-supplied lookup displays the looked-up name; a referenced id
missing from the lookup, or a call with no lookup supplied, displays
"Unknown Project"; a relation field with no reference at all (empty
list, or the property absent altogether) displays "-". -/
theorem C4_relation_display_three_way (pm : Option (List (String × String))) :
    (∀ (m : List (String × String)) (i : String) (rest : List JVal) (kv : String × String),
        m.find? (fun kv => pyEqJ (.str i) (.str kv.1)) = some kv →
        get_relation_name (.obj [("relation", .arr (.obj [("id", .str i)] :: rest))]) (some m)
          = .ok (.str kv.2))
    ∧ (∀ (m : List (String × String)) (i : String) (rest : List JVal),
        m.find? (fun kv => pyEqJ (.str i) (.str kv.1)) = none →
        get_relation_name (.obj [("relation", .arr (.obj [("id", .str i)] :: rest))]) (some m)
          = .ok (.str "Unknown Project"))
    ∧ (∀ (i : String) (rest : List JVal),
        get_relation_name (.obj [("relation", .arr (.obj [("id", .str i)] :: rest))]) none
          = .ok (.str "Unknown Project"))
    ∧ get_relation_name (.obj [("relation", .arr [])]) pm = .ok (.str "-")
    ∧ get_relation_name (.obj []) pm = .ok (.str "-") := by
  refine ⟨?_, ?_, ?_, ?_, ?_⟩
  · intro m i rest kv h
    simp [get_relation_name, dGetD, jlookup, truthy, index0, subscr, h]
  · intro m i rest h
    simp [get_relation_name, dGetD, jlookup, truthy, index0, subscr, h]
  · intro i rest
    simp [get_relation_name, dGetD, jlookup, truthy, index0, subscr]
  · simp [get_relation_name, dGetD, jlookup, truthy]
  · simp [get_relation_name, dGetD, jlookup, truthy]

/-- C4 witness: the spec's own example, lookup {"p1": "Alpha"}: a record
referencing "p1" displays "Alpha". -/
theorem C4_relation_display_three_way_witness :
    get_relation_name (.obj [("relation", .arr [.obj [("id", .str "p1")]])])
      (some [("p1", "Alpha")]) = .ok (.str "Alpha") :=
  (C4_relation_display_three_way (some [("p1", "Alpha")])).1
    [("p1", "Alpha")] "p1" [] ("p1", "Alpha") (by decide)

/-- C6 counterexample: the claim says a record with an absent or
wrong-shaped field never causes the whole batch to be aborted, but the
per-record parsing runs inside `get_tasks`'s single `try`: on the batch
[cGoodPage, cBadPage] the wrong-shaped second record raises KeyError and
the whole batch — including the first record, which parses fine on its
own — is discarded, `get_tasks` returning the columnless empty frame. -/
theorem C6_wrong_shape_aborts_batch :
    get_tasks (.error "down") (.ok cBadQuery) none = none
    ∧ parseItem "名前" "日付" "Project" none cGoodPage = .ok ⟨.str "A", .str "", .str "-"⟩ :=
  ⟨rfl, rfl⟩

/-- C6 amended: an absent expected field is indeed handled per-field
with a safe default — a record carrying none of the three resolved
properties parses to ⟨"", "", "-"⟩ — and a batch in which every record
parses is returned whole; but a wrong-shaped field (e.g. a title run
lacking its "text" subfield) raises inside the single enclosing `try`
and aborts the entire batch, which is reported as an empty columnless
result. -/
theorem C6_absent_fields_defaulted :
    (∀ (props : List (String × JVal)) (pm : Option (List (String × String))) (pt pd pr : String),
        jlookup props pt = none → jlookup props pd = none → jlookup props pr = none →
        parseItem pt pd pr pm (.obj [("properties", .obj props)])
          = .ok ⟨.str "", .str "", .str "-"⟩)
    ∧ (∀ (schemaResp : Except String (Nat × List (String × String)))
        (pm : Option (List (String × String))) (pages : List JVal) (rows : List TaskRow),
        parseLoop (fetch_db_schema schemaResp).1.title (fetch_db_schema schemaResp).1.date
            (fetch_db_schema schemaResp).1.relation pm pages = .ok rows →
        get_tasks schemaResp (.ok (.obj [("results", .arr pages)])) pm = some rows) := by
  constructor
  · intro props pm pt pd pr ht hd hr
    simp [parseItem, subscr, jlookup, dGetD, ht, hd, hr, get_title, get_date,
      get_relation_name, truthy]
  · intro schemaResp pm pages rows h
    simp [get_tasks, subscr, jlookup, h]

/-- C10: every SchemaMap `_fetch_db_schema` produces populates all three
roles: assuming the fetched metadata's property names are themselves
non-empty, the resolved title, date and relation names are non-empty;
and when discovery finds no property of a role's declared type, that
role holds the fixed literal default — "名前" for title, "日付" for
date, "Project" for relation — rather than being absent. -/
theorem C10_schema_roles_populated (resp : Except String (Nat × List (String × String))) :
    ((∀ p ∈ respProps resp, p.1 ≠ "") →
      (fetch_db_schema resp).1.title ≠ "" ∧ (fetch_db_schema resp).1.date ≠ ""
        ∧ (fetch_db_schema resp).1.relation ≠ "")
    ∧ ((∀ p ∈ respProps resp, p.2 ≠ "title") → (fetch_db_schema resp).1.title = "名前")
    ∧ ((∀ p ∈ respProps resp, p.2 ≠ "date") → (fetch_db_schema resp).1.date = "日付")
    ∧ ((∀ p ∈ respProps resp, p.2 ≠ "relation") →
        (fetch_db_schema resp).1.relation = "Project") := by
  have hdef : defaultSchema.title ≠ "" ∧ defaultSchema.date ≠ "" ∧ defaultSchema.relation ≠ "" := by
    refine ⟨?_, ?_, ?_⟩ <;> decide
  cases resp with
  | error e => exact ⟨fun _ => hdef, fun _ => rfl, fun _ => rfl, fun _ => rfl⟩
  | ok v =>
    obtain ⟨status, props⟩ := v
    by_cases hs : status = 200
    · subst hs
      have hfetch : (fetch_db_schema (.ok (200, props))).1
          = rescan (scanProps defaultSchema props) props := by
        simp [fetch_db_schema]
      have hresp : respProps (.ok ((200 : Nat), props)) = props := rfl
      rw [hfetch, hresp]
      refine ⟨fun hne => ⟨?_, ?_, ?_⟩, fun hty => ?_, fun hty => ?_, fun hty => ?_⟩
      · rw [rescan_title]
        cases hT : typedNames props "title" with
        | nil =>
          rcases scanProps_title_mem props defaultSchema with h | h
          · rw [h]; exact hdef.1
          · obtain ⟨p, hp, hpa⟩ := List.mem_map.mp h
            exact hpa ▸ hne p hp
        | cons t rest =>
          obtain ⟨p, hp, hpa⟩ := mem_typedNames (hT ▸ List.mem_cons_self t rest)
          exact hpa ▸ hne p hp
      · rw [rescan_date]
        cases hD : typedNames props "date" with
        | nil =>
          rcases scanProps_date_mem props defaultSchema with h | h
          · rw [h]; exact hdef.2.1
          · obtain ⟨p, hp, hpa⟩ := List.mem_map.mp h
            exact hpa ▸ hne p hp
        | cons d rest =>
          obtain ⟨p, hp, hpa⟩ := mem_typedNames (hD ▸ List.mem_cons_self d rest)
          exact hpa ▸ hne p hp
      · rw [rescan_relation]
        cases hH : projectHint props with
        | some r =>
          have hr : r ∈ typedNames props "relation" := List.mem_of_find?_eq_some hH
          obtain ⟨p, hp, hpa⟩ := mem_typedNames hr
          exact hpa ▸ hne p hp
        | none =>
          cases hR : typedNames props "relation" with
          | nil =>
            rcases scanProps_relation_mem props defaultSchema with h | h
            · rw [h]; exact hdef.2.2
            · obtain ⟨p, hp, hpa⟩ := List.mem_map.mp h
              exact hpa ▸ hne p hp
          | cons r rest =>
            obtain ⟨p, hp, hpa⟩ := mem_typedNames (hR ▸ List.mem_cons_self r rest)
            exact hpa ▸ hne p hp
      · rw [rescan_title, typedNames_nil hty]
        exact scanProps_title_preserve props defaultSchema hty
      · rw [rescan_date, typedNames_nil hty]
        exact scanProps_date_preserve props defaultSchema hty
      · rw [rescan_relation]
        have hnil : typedNames props "relation" = [] := typedNames_nil hty
        have hhint : projectHint props = none := by
          unfold projectHint
          rw [hnil]
          rfl
        rw [hhint, hnil]
        exact scanProps_relation_preserve props defaultSchema hty
    · have hfetch : fetch_db_schema (.ok (status, props)) = (defaultSchema, true) := by
        simp [fetch_db_schema, hs]
      rw [hfetch]
      exact ⟨fun _ => hdef, fun _ => rfl, fun _ => rfl, fun _ => rfl⟩

/-- C10 witness: a metadata response with a single title-typed property
"Name" resolves to non-empty names everywhere and to the literal date
and relation defaults. -/
theorem C10_schema_roles_populated_witness :
    (fetch_db_schema (.ok (200, [("Name", "title")]))).1.title ≠ ""
    ∧ (fetch_db_schema (.ok (200, [("Name", "title")]))).1.date = "日付"
    ∧ (fetch_db_schema (.ok (200, [("Name", "title")]))).1.relation = "Project" :=
  ⟨((C10_schema_roles_populated (.ok (200, [("Name", "title")]))).1 (by decide)).1,
    (C10_schema_roles_populated (.ok (200, [("Name", "title")]))).2.2.1 (by decide),
    (C10_schema_roles_populated (.ok (200, [("Name", "title")]))).2.2.2 (by decide)⟩

/-- C6 amended witness: a record with no parsed properties defaults to
⟨"", "", "-"⟩, and an all-parsable (here empty) batch is returned whole,
not aborted. -/
theorem C6_absent_fields_defaulted_witness :
    parseItem "名前" "日付" "Project" none (.obj [("properties", .obj [])])
        = .ok ⟨.str "", .str "", .str "-"⟩
    ∧ get_tasks (.error "e") (.ok (.obj [("results", .arr [])])) none = some [] :=
  ⟨C6_absent_fields_defaulted.1 [] none "名前" "日付" "Project" rfl rfl rfl,
    C6_absent_fields_defaulted.2 (.error "e") none [] [] rfl⟩

/-- C7 counterexample: the normalizer is not idempotent on the input
"?": the first application strips the query suffix and returns the empty
string (the emptiness guard only tests the ORIGINAL input), while the
second application's guard sees the empty string as falsy and returns
None — and empty string and None differ. -/
theorem C7_normalize_not_idempotent :
    sanitizeOptS (sanitize_str "?") ≠ sanitize_str "?" := by decide

/-- C7 amended: the normalizer is idempotent on every input whose first
normalization is not the empty string: a 32-hex match, a UUID match, and
the untouched fallthrough are each returned unchanged by a second
application; only an input reduced to "" by the query-strip/path-split
steps (e.g. "?" or "abc/") breaks idempotence, the second pass mapping
"" to None. -/
theorem C7_normalize_idem_unless_empty (s : String) (h : sanitize_str s ≠ some "") :
    sanitizeOptS (sanitize_str s) = sanitize_str s := by
  cases hs : sanitize_id s.data with
  | none =>
    unfold sanitize_str
    rw [hs]
    rfl
  | some m =>
    have hm : m ≠ [] := by
      intro he
      apply h
      unfold sanitize_str
      rw [hs, he]
      rfl
    have hround := sanitize_id_roundtrip hs hm
    show sanitizeOptS (sanitize_str s) = sanitize_str s
    unfold sanitize_str
    rw [hs]
    show sanitizeOptS (some (String.mk m)) = some (String.mk m)
    show (sanitize_id (String.mk m).data).map String.mk = some (String.mk m)
    have hdata : (String.mk m).data = m := rfl
    rw [hdata, hround]
    rfl

/-- C7 witness: on "abc" (fallthrough case) the first result is
non-empty and the second application returns it unchanged. -/
theorem C7_normalize_idem_unless_empty_witness :
    sanitize_str "abc" ≠ some "" ∧ sanitizeOptS (sanitize_str "abc") = sanitize_str "abc" :=
  ⟨by decide, C7_normalize_idem_unless_empty "abc" (by decide)⟩

/-- C8: whenever a date is supplied to a write call, the outbound
payload's date field holds exactly `date.isoformat()`, the calendar date
rendered `YYYY-MM-DD`: for any date within Python's `datetime.date`
ranges the string is 10 characters of digits and hyphens only — no time
and no timezone component. -/
theorem C8_date_payload_iso (schemaResp : Except String (Nat × List (String × String)))
    (name : String) (d : PyDate) (project_id : Option String)
    (hy : d.year ≤ 9999) (hm : d.month ≤ 99) (hd : d.day ≤ 99) :
    pylookup (add_task_properties schemaResp name (some d) project_id)
        (fetch_db_schema schemaResp).1.date = some (.dateP (isoformat d))
    ∧ (isoformat d).length = 10
    ∧ ∀ c ∈ (isoformat d).data, c.isDigit = true ∨ c = '-' := by
  refine ⟨?_, isoformat_length hy hm hd, isoformat_chars⟩
  exact pylookup_dinsert_self _ _ _

/-- C8 witness: the test's date 2023-01-01 lands in the payload under
the resolved "Date" field as the 10-character string "2023-01-01". -/
theorem C8_date_payload_iso_witness :
    pylookup (add_task_properties testSchemaResp "Test Task" (some ⟨2023, 1, 1⟩) none) "Date"
        = some (.dateP "2023-01-01")
    ∧ (isoformat ⟨2023, 1, 1⟩).length = 10 :=
  ⟨(C8_date_payload_iso testSchemaResp "Test Task" ⟨2023, 1, 1⟩ none
      (by decide) (by decide) (by decide)).1,
    (C8_date_payload_iso testSchemaResp "Test Task" ⟨2023, 1, 1⟩ none
      (by decide) (by decide) (by decide)).2.1⟩

end TaskApp
